import Mathlib

/-!
Verification of the media acquisition / caching pipeline (images pipeline,
request fingerprinting and storage-key derivation) against its
natural-language specification.

The definitions below are a shallow embedding of:
  * `scrapy/contrib/pipeline/images.py` (ImagesPipeline, FSImagesStore),
  * `scrapy/utils/request.py` (the `fingerprint` function).

Machine-level library primitives used by the sources (`hashlib.sha1`,
`hashlib.md5` behind `md5sum`, `json.dumps`) are embedded as faithful,
executable implementations of the corresponding standard algorithms.
Timestamps are modelled as exact rationals.
-/

namespace Scrapy


/-! ### Hexadecimal rendering (shared by all digests and by `bytes.hex()`) -/

/-- The sixteen lowercase hexadecimal digit characters, in value order. -/
def hexChars : List Char := (List.range 16).map Nat.digitChar

/-- The lowercase hexadecimal digit for a value below 16. -/
def hexDigit (n : Nat) : Char := Nat.digitChar n

/-- Numeric value of a lowercase hexadecimal digit character. -/
def hexVal (c : Char) : Nat :=
  match c with
  | '0' => 0 | '1' => 1 | '2' => 2 | '3' => 3 | '4' => 4
  | '5' => 5 | '6' => 6 | '7' => 7 | '8' => 8 | '9' => 9
  | 'a' => 10 | 'b' => 11 | 'c' => 12 | 'd' => 13 | 'e' => 14
  | _ => 15

/-- Fixed-width big-endian lowercase hexadecimal rendering of a natural number. -/
def hexOfNat (n width : Nat) : List Char :=
  (List.range width).map fun i => hexDigit (n / 16 ^ (width - 1 - i) % 16)

/-! ### SHA-1 (FIPS 180-1), over byte lists, words as `Nat` modulo `2 ^ 32` -/

/-- Left rotation of a 32-bit word represented as a `Nat`. -/
def rotl32 (k n : Nat) : Nat :=
  ((n % 4294967296) * 2 ^ k + (n % 4294967296) / 2 ^ (32 - k)) % 4294967296

/-- Number of zero bytes inserted by SHA-1/MD5 padding after the `0x80` byte. -/
def padZeros (l : Nat) : Nat := (119 - l % 64) % 64

/-- Big-endian 8-byte encoding of the bit length, as appended by SHA-1 padding. -/
def beLen8 (l : Nat) : List Nat :=
  [8 * l / 2 ^ 56 % 256, 8 * l / 2 ^ 48 % 256, 8 * l / 2 ^ 40 % 256,
   8 * l / 2 ^ 32 % 256, 8 * l / 2 ^ 24 % 256, 8 * l / 2 ^ 16 % 256,
   8 * l / 2 ^ 8 % 256, 8 * l % 256]

/-- SHA-1 message padding: `0x80`, zeros to 56 mod 64, big-endian bit length. -/
def sha1Pad (msg : List Nat) : List Nat :=
  msg ++ [128] ++ List.replicate (padZeros msg.length) 0 ++ beLen8 msg.length

/-- Split a byte list into successive 64-byte blocks. -/
def chunks64 (l : List Nat) : List (List Nat) :=
  if hl : l = [] then [] else l.take 64 :: chunks64 (l.drop 64)
termination_by l.length
decreasing_by
  cases l with
  | nil => exact absurd rfl hl
  | cons a t => simp; omega

/-- Big-endian 32-bit word `i` of a 64-byte block. -/
def wordBE (blk : List Nat) (i : Nat) : Nat :=
  blk.getD (4 * i) 0 * 16777216 + blk.getD (4 * i + 1) 0 * 65536 +
    blk.getD (4 * i + 2) 0 * 256 + blk.getD (4 * i + 3) 0

/-- The 80-entry SHA-1 message schedule of one block. -/
def sha1Schedule (blk : List Nat) : Array Nat :=
  (List.range 64).foldl
    (fun ws i =>
      ws.push (rotl32 1 (ws.getD (i + 13) 0 ^^^ ws.getD (i + 8) 0 ^^^
        ws.getD (i + 2) 0 ^^^ ws.getD i 0)))
    (((List.range 16).map fun i => wordBE blk i).toArray)

/-- The SHA-1 round function. -/
def sha1F (t b c d : Nat) : Nat :=
  if t < 20 then (b &&& c) ||| ((4294967295 ^^^ b) &&& d)
  else if t < 40 then b ^^^ c ^^^ d
  else if t < 60 then (b &&& c) ||| (b &&& d) ||| (c &&& d)
  else b ^^^ c ^^^ d

/-- The SHA-1 round constants. -/
def sha1K (t : Nat) : Nat :=
  if t < 20 then 0x5A827999
  else if t < 40 then 0x6ED9EBA1
  else if t < 60 then 0x8F1BBCDC
  else 0xCA62C1D6

/-- One SHA-1 compression step over a 64-byte block. -/
def sha1Compress (h : Nat × Nat × Nat × Nat × Nat) (blk : List Nat) :
    Nat × Nat × Nat × Nat × Nat :=
  let ws := sha1Schedule blk
  let s := (List.range 80).foldl
    (fun st t =>
      match st with
      | (a, b, c, d, e) =>
        ((rotl32 5 a + sha1F t b c d + e + sha1K t + ws.getD t 0) % 4294967296,
         a, rotl32 30 b, c, d))
    (h.1, h.2.1, h.2.2.1, h.2.2.2.1, h.2.2.2.2)
  match s with
  | (a, b, c, d, e) =>
    ((h.1 + a) % 4294967296, (h.2.1 + b) % 4294967296, (h.2.2.1 + c) % 4294967296,
     (h.2.2.2.1 + d) % 4294967296, (h.2.2.2.2 + e) % 4294967296)

/-- The SHA-1 digest of a byte list, as a natural number below `2 ^ 160`. -/
def sha1Digest (msg : List Nat) : Nat :=
  let r := (chunks64 (sha1Pad msg)).foldl sha1Compress
    (0x67452301, 0xEFCDAB89, 0x98BADCFE, 0x10325476, 0xC3D2E1F0)
  (((r.1 % 4294967296 * 4294967296 + r.2.1 % 4294967296) * 4294967296 +
      r.2.2.1 % 4294967296) * 4294967296 + r.2.2.2.1 % 4294967296) * 4294967296 +
    r.2.2.2.2 % 4294967296

/-- The SHA-1 hexdigest: 40 lowercase hexadecimal characters. -/
def sha1Hexdigest (msg : List Nat) : String := ⟨hexOfNat (sha1Digest msg) 40⟩

/-! ### MD5 (RFC 1321)

Modelled from the spec: the checksum helper `md5sum` (from
`scrapy.utils.misc`, whose source is not part of this excerpt) streams a
buffer and returns its MD5 hexdigest; the spec calls it "a content checksum
computed from the ... encoded bytes". It is embedded here as the standard
MD5 algorithm over the byte list. -/

/-- Little-endian 32-bit word `i` of a 64-byte block. -/
def wordLE (blk : List Nat) (i : Nat) : Nat :=
  blk.getD (4 * i) 0 + blk.getD (4 * i + 1) 0 * 256 +
    blk.getD (4 * i + 2) 0 * 65536 + blk.getD (4 * i + 3) 0 * 16777216

/-- Little-endian 8-byte encoding of the bit length, appended by MD5 padding. -/
def leLen8 (l : Nat) : List Nat :=
  [8 * l % 256, 8 * l / 2 ^ 8 % 256, 8 * l / 2 ^ 16 % 256, 8 * l / 2 ^ 24 % 256,
   8 * l / 2 ^ 32 % 256, 8 * l / 2 ^ 40 % 256, 8 * l / 2 ^ 48 % 256, 8 * l / 2 ^ 56 % 256]

/-- MD5 message padding: `0x80`, zeros to 56 mod 64, little-endian bit length. -/
def md5Pad (msg : List Nat) : List Nat :=
  msg ++ [128] ++ List.replicate (padZeros msg.length) 0 ++ leLen8 msg.length

/-- The 64 MD5 additive constants (RFC 1321). -/
def md5K : List Nat :=
  [0xd76aa478, 0xe8c7b756, 0x242070db, 0xc1bdceee,
   0xf57c0faf, 0x4787c62a, 0xa8304613, 0xfd469501,
   0x698098d8, 0x8b44f7af, 0xffff5bb1, 0x895cd7be,
   0x6b901122, 0xfd987193, 0xa679438e, 0x49b40821,
   0xf61e2562, 0xc040b340, 0x265e5a51, 0xe9b6c7aa,
   0xd62f105d, 0x02441453, 0xd8a1e681, 0xe7d3fbc8,
   0x21e1cde6, 0xc33707d6, 0xf4d50d87, 0x455a14ed,
   0xa9e3e905, 0xfcefa3f8, 0x676f02d9, 0x8d2a4c8a,
   0xfffa3942, 0x8771f681, 0x6d9d6122, 0xfde5380c,
   0xa4beea44, 0x4bdecfa9, 0xf6bb4b60, 0xbebfbc70,
   0x289b7ec6, 0xeaa127fa, 0xd4ef3085, 0x04881d05,
   0xd9d4d039, 0xe6db99e5, 0x1fa27cf8, 0xc4ac5665,
   0xf4292244, 0x432aff97, 0xab9423a7, 0xfc93a039,
   0x655b59c3, 0x8f0ccc92, 0xffeff47d, 0x85845dd1,
   0x6fa87e4f, 0xfe2ce6e0, 0xa3014314, 0x4e0811a1,
   0xf7537e82, 0xbd3af235, 0x2ad7d2bb, 0xeb86d391]

/-- The 64 MD5 per-round left-rotation amounts (RFC 1321). -/
def md5S : List Nat :=
  [7, 12, 17, 22, 7, 12, 17, 22, 7, 12, 17, 22, 7, 12, 17, 22,
   5, 9, 14, 20, 5, 9, 14, 20, 5, 9, 14, 20, 5, 9, 14, 20,
   4, 11, 16, 23, 4, 11, 16, 23, 4, 11, 16, 23, 4, 11, 16, 23,
   6, 10, 15, 21, 6, 10, 15, 21, 6, 10, 15, 21, 6, 10, 15, 21]

/-- The MD5 round function for step `t`. -/
def md5F (t b c d : Nat) : Nat :=
  if t < 16 then (b &&& c) ||| ((4294967295 ^^^ b) &&& d)
  else if t < 32 then (d &&& b) ||| ((4294967295 ^^^ d) &&& c)
  else if t < 48 then b ^^^ c ^^^ d
  else c ^^^ (b ||| (4294967295 ^^^ d))

/-- The MD5 message-word index for step `t`. -/
def md5G (t : Nat) : Nat :=
  if t < 16 then t
  else if t < 32 then (5 * t + 1) % 16
  else if t < 48 then (3 * t + 5) % 16
  else 7 * t % 16

/-- One MD5 compression step over a 64-byte block. -/
def md5Compress (h : Nat × Nat × Nat × Nat) (blk : List Nat) :
    Nat × Nat × Nat × Nat :=
  let s := (List.range 64).foldl
    (fun st t =>
      match st with
      | (a, b, c, d) =>
        (d,
         (b + rotl32 (md5S.getD t 0)
            ((a + md5F t b c d + md5K.getD t 0 + wordLE blk (md5G t)) % 4294967296)) %
           4294967296,
         b, c))
    (h.1, h.2.1, h.2.2.1, h.2.2.2)
  match s with
  | (a, b, c, d) =>
    ((h.1 + a) % 4294967296, (h.2.1 + b) % 4294967296,
     (h.2.2.1 + c) % 4294967296, (h.2.2.2 + d) % 4294967296)

/-- Little-endian per-byte hexadecimal rendering of a 32-bit word. -/
def wordLEHex (w : Nat) : List Char :=
  hexOfNat (w % 256) 2 ++ hexOfNat (w / 256 % 256) 2 ++
    hexOfNat (w / 65536 % 256) 2 ++ hexOfNat (w / 16777216 % 256) 2

/-- The MD5 hexdigest of a byte list: 32 lowercase hexadecimal characters. -/
def md5Hexdigest (msg : List Nat) : String :=
  let r := (chunks64 (md5Pad msg)).foldl md5Compress
    (0x67452301, 0xefcdab89, 0x98badcfe, 0x10325476)
  ⟨wordLEHex r.1 ++ wordLEHex r.2.1 ++ wordLEHex r.2.2.1 ++ wordLEHex r.2.2.2⟩

/-! ### Storage-key derivation (`ImagesPipeline.image_key` / `thumb_key`)

In Python 2 a `str` URL is a byte string; it is embedded as the list of the
character codes of the URL string. -/

/-- Byte encoding of a (byte-)string, one code per character. -/
def strBytes (s : String) : List Nat := s.data.map Char.toNat

/-- `ImagesPipeline.image_key`: `'full/%s.jpg' % sha1(url).hexdigest()`. -/
def image_key (url : String) : String :=
  "full/" ++ sha1Hexdigest (strBytes url) ++ ".jpg"

/-- `ImagesPipeline.thumb_key`: `'thumbs/%s/%s.jpg' % (thumb_id, sha1(url).hexdigest())`. -/
def thumb_key (url : String) (thumb_id : String) : String :=
  "thumbs/" ++ thumb_id ++ "/" ++ sha1Hexdigest (strBytes url) ++ ".jpg"

/-! ### Stat results and the freshness decision (`media_to_download`) -/

/-- The dictionary returned by a store's `stat_image`: the empty dict `{}` is
`⟨none, none⟩`; a populated result carries both keys. Timestamps are exact
rationals (seconds since the epoch). -/
structure StatResult where
  last_modified : Option ℚ
  checksum : Option String
deriving DecidableEq

/-- Result of the `defer.maybeDeferred(self.store.stat_image, ...)` call:
either the returned dictionary, or a raised exception / failed deferred. -/
inductive StatOutcome
  | ok (r : StatResult)
  | err
deriving DecidableEq

/-- The per-resource result dict `{'url': ..., 'path': ..., 'checksum': ...}`. -/
structure OutcomeRecord where
  url : String
  path : String
  checksum : Option String
deriving DecidableEq

/-- `ImagesPipeline.media_to_download`, given the outcome of the stat round
trip and the current time `now`. Returning `none` models "returning None
force download"; a stat failure is swallowed by the `lambda _: None`
errback. Python falsiness of a number makes `last_modified = 0` count as
absent, and the empty dict `{}` is falsy. -/
def media_to_download (EXPIRES : ℚ) (now : ℚ) (requrl : String) (so : StatOutcome) :
    Option OutcomeRecord :=
  match so with
  | .err => none
  | .ok result =>
    if result.last_modified = none ∧ result.checksum = none then none
    else
      match result.last_modified with
      | none => none
      | some lm =>
        if lm = 0 then none
        else
          let age_seconds := now - lm
          let age_days := age_seconds / 60 / 60 / 24
          if age_days > EXPIRES then none
          else some ⟨requrl, image_key requrl, result.checksum⟩

/-- `FSImagesStore.stat_image`. The filesystem is a partial map from keys to
(mtime, contents); an absent key makes `os.path.getmtime` raise, which the
bare `except` turns into the empty dict. -/
def stat_image (fs : String → Option (ℚ × List Nat)) (key : String) : StatResult :=
  match fs key with
  | none => ⟨none, none⟩
  | some (last_modified, contents) => ⟨some last_modified, some (md5Hexdigest contents)⟩

/-! ### The artifact processor (`get_images` / `convert_image`)

Modelled from the spec: the PIL imaging library (`Image.open`, `convert`,
`thumbnail`, `save`) is not part of the repository sources. Per the spec the
processor "decodes a raw downloaded payload into a validated primary
artifact", "normalizes color representation to a canonical mode" and
produces "a resized copy" per variant; it is embedded as an abstract imaging
backend: decoding and JPEG-encoding may fail (`Image.open` / `image.save`
raising), conversion and resizing are total functions on decoded images. -/

/-- A decoded in-memory image: mode string, dimensions, and an abstract
identifier for its pixel content. -/
structure PILImage where
  mode : String
  width : Nat
  height : Nat
  content : Nat
deriving DecidableEq

/-- The imaging backend operations used by the pipeline. -/
structure Imaging where
  decode : List Nat → Option PILImage
  convertRGB : PILImage → PILImage
  thumbnail : PILImage → Nat × Nat → PILImage
  encodeJPEG : PILImage → Option (List Nat)

/-- Exceptions raised while producing artifacts (`ImageException` carriers,
plus the decode error raised by `Image.open`). `tooSmall` records the actual
and required dimensions and the response URL, as interpolated into the
`"Image too small (%dx%d < %dx%d): %s"` message. -/
inductive ImageError
  | decodeError
  | tooSmall (width height min_width min_height : Nat) (url : String)
  | encodeError
deriving DecidableEq

/-- Pipeline configuration: the `IMAGES_MIN_WIDTH`, `IMAGES_MIN_HEIGHT` and
`IMAGES_THUMBS` settings (`THUMBS` as a list of name/size pairs). -/
structure ImagesConfig where
  MIN_WIDTH : Nat
  MIN_HEIGHT : Nat
  THUMBS : List (String × Nat × Nat)

/-- `ImagesPipeline.convert_image`: normalize to RGB unless already RGB,
resize when a size bound is given, then JPEG-encode into a fresh buffer. -/
def convert_image (im : Imaging) (image : PILImage) (size : Option (Nat × Nat)) :
    Except ImageError (PILImage × List Nat) :=
  let image1 := if image.mode ≠ "RGB" then im.convertRGB image else image
  let image2 := match size with
    | some s => im.thumbnail image1 s
    | none => image1
  match im.encodeJPEG image2 with
  | some buf => .ok (image2, buf)
  | none => .error .encodeError

/-- An HTTP response as seen by the pipeline. -/
structure Response where
  url : String
  status : Nat
  body : List Nat
deriving DecidableEq

/-- The thumbnail part of the `get_images` generator: one `(key, image, buf)`
triple per configured variant, derived from the (already converted) primary
image; a conversion failure ends the generator with that error after the
earlier items were yielded. -/
def genThumbs (im : Imaging) (requrl : String) (image : PILImage) :
    List (String × Nat × Nat) → List (String × PILImage × List Nat) × Option ImageError
  | [] => ([], none)
  | (thumb_id, size) :: rest =>
    match convert_image im image (some size) with
    | .error e => ([], some e)
    | .ok (thumb_image, thumb_buf) =>
      let (xs, e) := genThumbs im requrl image rest
      ((thumb_key requrl thumb_id, thumb_image, thumb_buf) :: xs, e)

/-- `ImagesPipeline.get_images` as a generator: the list of `(key, image,
buf)` triples actually yielded, paired with the exception (if any) that
terminated the generator after those yields. -/
def get_images (cfg : ImagesConfig) (im : Imaging) (requrl : String) (resp : Response) :
    List (String × PILImage × List Nat) × Option ImageError :=
  let key := image_key requrl
  match im.decode resp.body with
  | none => ([], some .decodeError)
  | some orig_image =>
    if orig_image.width < cfg.MIN_WIDTH ∨ orig_image.height < cfg.MIN_HEIGHT then
      ([], some (.tooSmall orig_image.width orig_image.height
        cfg.MIN_WIDTH cfg.MIN_HEIGHT resp.url))
    else
      match convert_image im orig_image none with
      | .error e => ([], some e)
      | .ok (image, buf) =>
        let (thumbs, e) := genThumbs im requrl image cfg.THUMBS
        ((key, image, buf) :: thumbs, e)

/-! ### Persistence and the per-resource outcome
(`image_downloaded` / `media_downloaded`) -/

/-- An exception raised by a synchronous `store.persist_image` call (the
filesystem store raises on mkdir/save failure; the S3 store returns a
deferred instead and never raises synchronously). -/
inductive PersistError
  | ioError (msg : String)
deriving DecidableEq

/-- The behaviour of `store.persist_image` at its call site: `none` means the
call returned (its return value is discarded by `image_downloaded`), `some e`
means it raised. -/
def PersistCall := String → PILImage → List Nat → Option PersistError

/-- The S3 store's persist call never raises synchronously: it schedules an
upload and returns a deferred, whose eventual result `image_downloaded`
discards. -/
def s3PersistCall : PersistCall := fun _ _ _ => none

/-- The `for key, image, buf in ...: self.store.persist_image(...)` loop:
keys successfully persisted in order, and the first persist exception. -/
def persistLoop (persist : PersistCall) :
    List (String × PILImage × List Nat) → List String × Option PersistError
  | [] => ([], none)
  | (key, image, buf) :: rest =>
    match persist key image buf with
    | some e => ([], some e)
    | none =>
      let (ks, e) := persistLoop persist rest
      (key :: ks, e)

/-- Exceptions escaping `ImagesPipeline.image_downloaded`. -/
inductive ImgDlError
  | img (e : ImageError)
  | persist (e : PersistError)
deriving DecidableEq

/-- `ImagesPipeline.image_downloaded`: drive the generator, persist every
yielded artifact, and return the MD5 hexdigest of the first buffer. The
persisted keys are returned alongside to record which artifacts were stored.
A persist exception aborts the loop before the generator's own exception
could be observed. -/
def image_downloaded (cfg : ImagesConfig) (im : Imaging) (persist : PersistCall)
    (requrl : String) (resp : Response) : List String × Except ImgDlError String :=
  let (items, genErr) := get_images cfg im requrl resp
  let (ks, pErr) := persistLoop persist items
  match pErr with
  | some e => (ks, .error (.persist e))
  | none =>
    match genErr with
    | some e => (ks, .error (.img e))
    | none =>
      match items.head? with
      | some (_, _, first_buf) => (ks, .ok (md5Hexdigest first_buf))
      | none => (ks, .error (.img .decodeError))

/-- The value of the deferred returned by `media_downloaded`: the result dict,
or the `ImageException` it raises. -/
inductive MediaResult
  | ok (rec : OutcomeRecord)
  | imageException
deriving DecidableEq

/-- `ImagesPipeline.media_downloaded`: reject non-200 statuses and empty
bodies, then process and persist; any exception out of `image_downloaded`
(an `ImageException` re-raised, or any other exception converted) makes the
whole call raise `ImageException`. -/
def media_downloaded (cfg : ImagesConfig) (im : Imaging) (persist : PersistCall)
    (requrl : String) (resp : Response) : List String × MediaResult :=
  if resp.status ≠ 200 then ([], .imageException)
  else if resp.body = [] then ([], .imageException)
  else
    let key := image_key requrl
    let (ks, r) := image_downloaded cfg im persist requrl resp
    match r with
    | .error _ => (ks, .imageException)
    | .ok checksum => (ks, .ok ⟨requrl, key, some checksum⟩)

/-! ### JSON serialization (ensure-ascii string escaping, as `json.dumps`)

`fingerprint` hashes `json.dumps(fingerprint_data, sort_keys=True)`; the
default encoder escapes `"`, `\`, control characters (with the short escapes
of RFC 8259) and every character outside `0x20..0x7e` (as `\uXXXX`,
non-BMP characters as a UTF-16 surrogate pair). -/

/-- The escape sequence emitted for one character by the ensure-ascii JSON
string encoder. -/
def escChar (c : Char) : List Char :=
  if c = '"' then ['\\', '"']
  else if c = '\\' then ['\\', '\\']
  else if c.toNat = 8 then ['\\', 'b']
  else if c.toNat = 9 then ['\\', 't']
  else if c.toNat = 10 then ['\\', 'n']
  else if c.toNat = 12 then ['\\', 'f']
  else if c.toNat = 13 then ['\\', 'r']
  else if c.toNat < 32 then '\\' :: 'u' :: hexOfNat c.toNat 4
  else if c.toNat < 127 then [c]
  else if c.toNat < 65536 then '\\' :: 'u' :: hexOfNat c.toNat 4
  else
    ('\\' :: 'u' :: hexOfNat (55296 + (c.toNat - 65536) / 1024) 4) ++
      ('\\' :: 'u' :: hexOfNat (56320 + (c.toNat - 65536) % 1024) 4)

/-- Ensure-ascii JSON escaping of a character sequence. -/
def escape (l : List Char) : List Char := (l.map escChar).flatten

/-- Numeric value of four hexadecimal digit characters. -/
def hex4Val (a b c d : Char) : Nat :=
  ((hexVal a * 16 + hexVal b) * 16 + hexVal c) * 16 + hexVal d

/-- Decoding of a two-character JSON short escape. -/
def shortChar (e : Char) : Char :=
  if e = 'b' then Char.ofNat 8
  else if e = 't' then Char.ofNat 9
  else if e = 'n' then Char.ofNat 10
  else if e = 'f' then Char.ofNat 12
  else if e = 'r' then Char.ofNat 13
  else e

/-- Decoder for JSON string escapes, a left inverse of `escape` used to
establish that escaping is injective. -/
def unescape : List Char → List Char
  | [] => []
  | '\\' :: 'u' :: a :: b :: c2 :: d :: rest3 =>
    let n := hex4Val a b c2 d
    if 55296 ≤ n ∧ n < 56320 then
      match rest3 with
      | '\\' :: 'u' :: a2 :: b2 :: c3 :: d2 :: rest4 =>
        Char.ofNat ((n - 55296) * 1024 + (hex4Val a2 b2 c3 d2 - 56320) + 65536) ::
          unescape rest4
      | other => Char.ofNat n :: unescape other
    else Char.ofNat n :: unescape rest3
  | '\\' :: 'u' :: _ => []
  | '\\' :: e :: rest2 => shortChar e :: unescape rest2
  | ['\\'] => []
  | c :: rest => c :: unescape rest
termination_by l => l.length
decreasing_by all_goals simp_wf <;> omega

/-- A JSON string literal: quote, escaped contents, quote. -/
def jsonStr (s : String) : String := "\"" ++ ⟨escape s.data⟩ ++ "\""

/-- The hex rendering `bytes.hex()` of a byte string, two lowercase digits
per byte. -/
def bytesHex (b : List (Fin 256)) : String :=
  ⟨(b.map fun x => hexOfNat x.val 2).flatten⟩

/-- Hex rendering of an (ASCII) header token's bytes. -/
def asciiHex (s : String) : String :=
  ⟨(s.data.map fun c => hexOfNat (c.toNat % 256) 2).flatten⟩

/-! ### URL canonicalization and the request fingerprint
(`scrapy/utils/request.py`) -/

/-- Modelled from the spec: `w3lib.url.canonicalize_url` is an external
collaborator whose source is not part of this excerpt; the spec requires
"stable query-parameter ordering, fragment stripped unless `keep_fragments`".
URLs are therefore embedded structurally. -/
structure Url where
  scheme : String
  host : String
  path : String
  query : List (String × String)
  fragment : String
deriving DecidableEq

/-- Lexicographic comparison of character sequences by code point, the
order Python's `sorted` uses on byte strings. -/
def charListLt : List Char → List Char → Bool
  | [], [] => false
  | [], _ :: _ => true
  | _ :: _, [] => false
  | c1 :: t1, c2 :: t2 =>
    if c1.toNat < c2.toNat then true
    else if c2.toNat < c1.toNat then false
    else charListLt t1 t2

/-- Code-point lexicographic order on strings. -/
def strLt (a b : String) : Bool := charListLt a.data b.data

/-- Comparator giving the stable query-parameter ordering. -/
def pairLe (a b : String × String) : Bool :=
  strLt a.1 b.1 || (a.1 == b.1 && !(strLt b.2 a.2))

/-- Ordered insertion of one query parameter. -/
def insertPairSorted (x : String × String) :
    List (String × String) → List (String × String)
  | [] => [x]
  | y :: t => if pairLe x y then x :: y :: t else y :: insertPairSorted x t

/-- Sort query parameters into the stable canonical order. -/
def sortQuery : List (String × String) → List (String × String)
  | [] => []
  | x :: t => insertPairSorted x (sortQuery t)

/-- Render a (sorted) query as a URL query string. -/
def queryToString (q : List (String × String)) : String :=
  match q with
  | [] => ""
  | _ => "?" ++ String.intercalate "&" (q.map fun p => p.1 ++ "=" ++ p.2)

/-- Modelled from the spec: canonical URL text — scheme, host, path, sorted
query, and the fragment only when `keep_fragments` is set. -/
def canonicalize_url (u : Url) (keep_fragments : Bool) : String :=
  u.scheme ++ "://" ++ u.host ++ u.path ++ queryToString (sortQuery u.query) ++
    (if keep_fragments ∧ u.fragment ≠ "" then "#" ++ u.fragment else "")

/-- An outbound request as used by `fingerprint`: method, structural URL,
body bytes, and headers (ASCII tokens, already case-normalized as the
`Headers` container stores them). -/
structure Request where
  method : String
  url : Url
  body : List (Fin 256)
  headers : List (String × List String)
deriving DecidableEq

/-- Ordered insertion of a string. -/
def insertStrSorted (x : String) : List String → List String
  | [] => [x]
  | y :: t => if !(strLt y x) then x :: y :: t else y :: insertStrSorted x t

/-- Sort a list of strings (Python `sorted`). -/
def sortStrings : List String → List String
  | [] => []
  | x :: t => insertStrSorted x (sortStrings t)

/-- `processed_include_headers`: `None` and the empty list are falsy and
yield no headers; otherwise the names are sorted, then lower-cased. -/
def processedIncludeHeaders (include_headers : Option (List String)) : List String :=
  match include_headers with
  | none => []
  | some l => if l.isEmpty then [] else (sortStrings l).map fun h => h.map Char.toLower

/-- Header lookup (`header in request.headers` / `getlist`). -/
def lookupHeader (hs : List (String × List String)) (name : String) : Option (List String) :=
  (hs.find? fun p => p.1 == name).map Prod.snd

/-- Dictionary insertion: replace the value at an existing key, else append. -/
def upsert (d : List (String × List String)) (k : String) (v : List String) :
    List (String × List String) :=
  if d.any fun p => p.1 == k then
    d.map fun p => if p.1 == k then (k, v) else p
  else d ++ [(k, v)]

/-- The `headers` dictionary of `fingerprint_data`: for each processed
include-header present on the request, its hex-encoded name mapped to the
hex-encoded values. -/
def fingerprintHeaders (req : Request) (processed : List String) :
    List (String × List String) :=
  processed.foldl
    (fun acc h =>
      match lookupHeader req.headers h with
      | none => acc
      | some vs => upsert acc (asciiHex h) (vs.map asciiHex))
    []

/-- Ordered insertion of a dict entry by key. -/
def insertEntrySorted (x : String × List String) :
    List (String × List String) → List (String × List String)
  | [] => [x]
  | y :: t => if !(strLt y.1 x.1) then x :: y :: t else y :: insertEntrySorted x t

/-- Sort dict entries by key (`json.dumps(..., sort_keys=True)`). -/
def sortByKey : List (String × List String) → List (String × List String)
  | [] => []
  | x :: t => insertEntrySorted x (sortByKey t)

/-- JSON rendering of a list of strings. -/
def jsonList (xs : List String) : String :=
  "[" ++ String.intercalate ", " (xs.map jsonStr) ++ "]"

/-- JSON rendering of the headers dictionary with sorted keys. -/
def headersJson (d : List (String × List String)) : String :=
  "\x7b" ++
    String.intercalate ", " ((sortByKey d).map fun p => jsonStr p.1 ++ ": " ++ jsonList p.2) ++
    "\x7d"

/-- The text of `json.dumps(fingerprint_data, sort_keys=True)` for given
field values: keys in sorted order `body`, `headers`, `method`, `url`. -/
def fingerprintPayloadParts (method urlCanon bodyHex : String)
    (hd : List (String × List String)) : String :=
  "\x7b\"body\": " ++ jsonStr bodyHex ++ ", \"headers\": " ++ headersJson hd ++
    ", \"method\": " ++ jsonStr method ++ ", \"url\": " ++ jsonStr urlCanon ++ "\x7d"

/-- `json.dumps(fingerprint_data, sort_keys=True)` for a request. -/
def fingerprintPayload (req : Request) (include_headers : Option (List String))
    (keep_fragments : Bool) : String :=
  fingerprintPayloadParts req.method (canonicalize_url req.url keep_fragments)
    (bytesHex req.body) (fingerprintHeaders req (processedIncludeHeaders include_headers))

/-- `scrapy.utils.request.fingerprint`: the SHA-1 digest (as a number below
`2 ^ 160`) of the UTF-8/ASCII encoding of the serialized fingerprint data. -/
def fingerprint (req : Request) (include_headers : Option (List String))
    (keep_fragments : Bool) : Nat :=
  sha1Digest (strBytes (fingerprintPayload req include_headers keep_fragments))

/-! ### The freshness classification in the spec's own words

`classify_spec` restates §4.3 of the spec for comparison with the code's
`media_to_download`: "`stale` if `now - last_modified > expiry_window`
(expressed in whole days; fractional days round down — age in days must
exceed the window, not merely reach it)". -/

/-- The spec's three-way freshness classification. -/
inductive Freshness
  | missing
  | fresh
  | stale
deriving DecidableEq

/-- The freshness rule exactly as the spec words it, with the age in days
rounded down to a whole number before comparison with the window. -/
def classify_spec (expiry_window : ℤ) (now : ℚ) (r : Option StatResult) : Freshness :=
  match r with
  | none => .missing
  | some st =>
    match st.last_modified with
    | none => .missing
    | some lm =>
      if ⌊(now - lm) / 86400⌋ > expiry_window then .stale else .fresh

/-- The storage-key shape asserted by the spec's §6 persisted layout:
`full/<64-hex-char-digest>.<ext>` with the `.jpg` extension the pipeline
uses. -/
def hasShape64 (k : String) : Prop :=
  ∃ d : String, k = "full/" ++ d ++ ".jpg" ∧ d.length = 64

/-! ### Test fixtures used by witnesses and counterexamples -/

/-- A benign imaging backend: every payload decodes to a 100×80 RGB image;
conversion marks the mode RGB; resizing sets the bounded dimensions and a
fresh content id; encoding renders content and width into a two-byte buffer. -/
def imTest : Imaging where
  decode := fun _ => some ⟨"RGB", 100, 80, 0⟩
  convertRGB := fun i => { i with mode := "RGB" }
  thumbnail := fun i s => { i with width := s.1, height := s.2, content := i.content + 1 }
  encodeJPEG := fun i => some [i.content % 256, i.width % 256]

/-- An imaging backend whose decoded images are 10×10 (for the too-small
scenario). -/
def imSmall : Imaging where
  decode := fun _ => some ⟨"RGB", 10, 10, 5⟩
  convertRGB := fun i => { i with mode := "RGB" }
  thumbnail := fun i s => { i with width := s.1, height := s.2, content := i.content + 1 }
  encodeJPEG := fun i => some [i.content % 256, i.width % 256]

/-- No minimum dimensions, one configured thumbnail variant. -/
def cfgTest : ImagesConfig := ⟨0, 0, [("small", 50, 50)]⟩

/-- Minimum dimensions 50×60, no thumbnails. -/
def cfgMin : ImagesConfig := ⟨50, 60, []⟩

/-- A persist call that always succeeds. -/
def persistOk : PersistCall := fun _ _ _ => none

/-- A filesystem persist call that raises on every save. -/
def persistFail : PersistCall := fun _ _ _ => some (.ioError "disk full")

/-- An empty filesystem. -/
def fsEmpty : String → Option (ℚ × List Nat) := fun _ => none

/-! ### Theorems -/

theorem hexOfNat_length (n width : Nat) : (hexOfNat n width).length = width := by
  simp [hexOfNat]

theorem hexDigit_mem_hexChars (n : Nat) (h : n < 16) : hexDigit n ∈ hexChars := by
  rw [hexDigit, hexChars]
  exact List.mem_map_of_mem _ (List.mem_range.mpr h)

theorem hexVal_hexDigit (k : Nat) (h : k < 16) : hexVal (hexDigit k) = k := by
  interval_cases k <;> decide

theorem sha1Digest_lt (msg : List Nat) : sha1Digest msg < 2 ^ 160 := by
  unfold sha1Digest
  have h32 : ∀ x : Nat, x % 4294967296 < 4294967296 := fun x => Nat.mod_lt _ (by norm_num)
  set r := (chunks64 (sha1Pad msg)).foldl sha1Compress
    (0x67452301, 0xEFCDAB89, 0x98BADCFE, 0x10325476, 0xC3D2E1F0) with hr
  have step : ∀ a b : Nat, a < 4294967296 → b % 4294967296 < 4294967296 →
      a * 4294967296 + b % 4294967296 < 4294967296 * 4294967296 := by
    intro a b ha hb
    calc a * 4294967296 + b % 4294967296 < a * 4294967296 + 4294967296 := by omega
    _ = (a + 1) * 4294967296 := by ring
    _ ≤ 4294967296 * 4294967296 := Nat.mul_le_mul_right _ (by omega)
  have h1 := h32 r.1
  have h2 := h32 r.2.1
  have h3 := h32 r.2.2.1
  have h4 := h32 r.2.2.2.1
  have h5 := h32 r.2.2.2.2
  have : (2 : Nat) ^ 160 = 4294967296 * 4294967296 * 4294967296 * 4294967296 * 4294967296 := by
    norm_num
  rw [this]
  nlinarith [h1, h2, h3, h4, h5]

theorem sha1Hexdigest_length (msg : List Nat) : (sha1Hexdigest msg).length = 40 := by
  simp [sha1Hexdigest, String.length, hexOfNat_length]

theorem hexOfNat_four (n : Nat) :
    hexOfNat n 4 = [hexDigit (n / 4096 % 16), hexDigit (n / 256 % 16),
      hexDigit (n / 16 % 16), hexDigit (n % 16)] := by
  simp [hexOfNat, List.range_succ]

theorem hex4Val_round (n : Nat) (h : n < 65536) :
    hex4Val (hexDigit (n / 4096 % 16)) (hexDigit (n / 256 % 16))
      (hexDigit (n / 16 % 16)) (hexDigit (n % 16)) = n := by
  rw [hex4Val, hexVal_hexDigit _ (Nat.mod_lt _ (by norm_num)),
    hexVal_hexDigit _ (Nat.mod_lt _ (by norm_num)),
    hexVal_hexDigit _ (Nat.mod_lt _ (by norm_num)),
    hexVal_hexDigit _ (Nat.mod_lt _ (by norm_num))]
  omega

theorem unescape_pass (c : Char) (hc : c ≠ '\\') (X : List Char) :
    unescape (c :: X) = c :: unescape X := by
  rw [unescape.eq_def]
  split
  all_goals try (exfalso; simp_all; done)
  all_goals rename_i heq
  all_goals try (injection heq with h1 h2; subst h1; subst h2; rfl)

theorem unescape_short (e : Char) (he : e ≠ 'u') (X : List Char) :
    unescape ('\\' :: e :: X) = shortChar e :: unescape X := by
  rw [unescape.eq_def]
  split
  all_goals try (exfalso; simp_all; done)
  · simp_all
  · exfalso
    rename_i hx1 hx0 heq
    injection heq with h1 h2
    exact hx1 e X h1.symm h2.symm

theorem unescape_u_nonsurrogate (a b c2 d : Char) (X : List Char)
    (h : ¬(55296 ≤ hex4Val a b c2 d ∧ hex4Val a b c2 d < 56320)) :
    unescape ('\\' :: 'u' :: a :: b :: c2 :: d :: X) =
      Char.ofNat (hex4Val a b c2 d) :: unescape X := by
  rw [unescape.eq_def]
  split
  all_goals try (exfalso; simp_all; done)
  · rename_i heq
    injection heq with h1 heq
    injection heq with h2 heq
    injection heq with h3 heq
    injection heq with h4 heq
    injection heq with h5 heq
    injection heq with h6 heq
    subst h3
    subst h4
    subst h5
    subst h6
    subst heq
    rw [if_neg h]
  · exfalso
    rename_i hx heq
    injection heq with h1 heq2
    injection heq2 with h2 heq3
    exact hx a b c2 d X heq3.symm
  · exfalso
    rename_i hx1 hx0 heq
    injection heq with h1 heq2
    injection heq2 with h2 heq3
    exact hx0 h2.symm
  · exfalso
    rename_i hx3 hx2 hx1 hx0 heq
    injection heq with h1 h2
    exact hx1 'u' (a :: b :: c2 :: d :: X) h1.symm h2.symm

theorem unescape_u_pair (a b c2 d a2 b2 c3 d2 : Char) (X : List Char)
    (h : 55296 ≤ hex4Val a b c2 d ∧ hex4Val a b c2 d < 56320) :
    unescape ('\\' :: 'u' :: a :: b :: c2 :: d :: '\\' :: 'u' :: a2 :: b2 :: c3 :: d2 :: X) =
      Char.ofNat ((hex4Val a b c2 d - 55296) * 1024 + (hex4Val a2 b2 c3 d2 - 56320) + 65536) ::
        unescape X := by
  rw [unescape.eq_def]
  split
  all_goals try (exfalso; simp_all; done)
  · rename_i heq
    injection heq with h1 heq
    injection heq with h2 heq
    injection heq with h3 heq
    injection heq with h4 heq
    injection heq with h5 heq
    injection heq with h6 heq
    subst h3
    subst h4
    subst h5
    subst h6
    subst heq
    rw [if_pos h]
    rfl
  · exfalso
    rename_i hx heq
    injection heq with h1 heq2
    injection heq2 with h2 heq3
    exact hx a b c2 d ('\\' :: 'u' :: a2 :: b2 :: c3 :: d2 :: X) heq3.symm
  · exfalso
    rename_i hx1 hx0 heq
    injection heq with h1 heq2
    injection heq2 with h2 heq3
    exact hx0 h2.symm
  · exfalso
    rename_i hx3 hx2 hx1 hx0 heq
    injection heq with h1 h2
    exact hx1 'u' (a :: b :: c2 :: d :: '\\' :: 'u' :: a2 :: b2 :: c3 :: d2 :: X) h1.symm h2.symm

theorem char_toNat_valid (c : Char) :
    c.toNat < 55296 ∨ (57343 < c.toNat ∧ c.toNat < 1114112) := by
  rcases c.valid with h | ⟨h1, h2⟩
  · left
    exact h
  · right
    exact ⟨h1, h2⟩

theorem unescape_escChar_append (c : Char) (X : List Char) :
    unescape (escChar c ++ X) = c :: unescape X := by
  have hvalid := char_toNat_valid c
  by_cases h1 : c = '\"'
  · subst h1
    rw [show escChar '\"' ++ X = '\\' :: '\"' :: X from rfl]
    rw [unescape_short _ (by decide) X]
    rfl
  by_cases h2 : c = '\\'
  · subst h2
    rw [show escChar '\\' ++ X = '\\' :: '\\' :: X from by rw [escChar, if_neg (by decide)]; rfl]
    rw [unescape_short _ (by decide) X]
    rfl
  by_cases h3 : c.toNat = 8
  · have hc : Char.ofNat 8 = c := by rw [← h3, Char.ofNat_toNat]
    rw [escChar, if_neg h1, if_neg h2, if_pos h3, List.cons_append, List.cons_append,
      List.nil_append, unescape_short _ (by decide) X]
    rw [show shortChar 'b' = Char.ofNat 8 from rfl, hc]
  by_cases h4 : c.toNat = 9
  · have hc : Char.ofNat 9 = c := by rw [← h4, Char.ofNat_toNat]
    rw [escChar, if_neg h1, if_neg h2, if_neg h3, if_pos h4, List.cons_append, List.cons_append,
      List.nil_append, unescape_short _ (by decide) X]
    rw [show shortChar 't' = Char.ofNat 9 from rfl, hc]
  by_cases h5 : c.toNat = 10
  · have hc : Char.ofNat 10 = c := by rw [← h5, Char.ofNat_toNat]
    rw [escChar, if_neg h1, if_neg h2, if_neg h3, if_neg h4, if_pos h5, List.cons_append,
      List.cons_append, List.nil_append, unescape_short _ (by decide) X]
    rw [show shortChar 'n' = Char.ofNat 10 from rfl, hc]
  by_cases h6 : c.toNat = 12
  · have hc : Char.ofNat 12 = c := by rw [← h6, Char.ofNat_toNat]
    rw [escChar, if_neg h1, if_neg h2, if_neg h3, if_neg h4, if_neg h5, if_pos h6,
      List.cons_append, List.cons_append, List.nil_append, unescape_short _ (by decide) X]
    rw [show shortChar 'f' = Char.ofNat 12 from rfl, hc]
  by_cases h7 : c.toNat = 13
  · have hc : Char.ofNat 13 = c := by rw [← h7, Char.ofNat_toNat]
    rw [escChar, if_neg h1, if_neg h2, if_neg h3, if_neg h4, if_neg h5, if_neg h6, if_pos h7,
      List.cons_append, List.cons_append, List.nil_append, unescape_short _ (by decide) X]
    rw [show shortChar 'r' = Char.ofNat 13 from rfl, hc]
  by_cases h8 : c.toNat < 32
  · have hround := hex4Val_round c.toNat (by omega)
    rw [escChar, if_neg h1, if_neg h2, if_neg h3, if_neg h4, if_neg h5, if_neg h6, if_neg h7,
      if_pos h8, hexOfNat_four]
    simp only [List.cons_append, List.nil_append]
    rw [unescape_u_nonsurrogate _ _ _ _ X (by rw [hround]; omega)]
    rw [hround, Char.ofNat_toNat]
  by_cases h9 : c.toNat < 127
  · rw [escChar, if_neg h1, if_neg h2, if_neg h3, if_neg h4, if_neg h5, if_neg h6, if_neg h7,
      if_neg h8, if_pos h9, List.cons_append, List.nil_append]
    exact unescape_pass c h2 X
  by_cases h10 : c.toNat < 65536
  · have hround := hex4Val_round c.toNat (by omega)
    rw [escChar, if_neg h1, if_neg h2, if_neg h3, if_neg h4, if_neg h5, if_neg h6, if_neg h7,
      if_neg h8, if_neg h9, if_pos h10, hexOfNat_four]
    simp only [List.cons_append, List.nil_append]
    rw [unescape_u_nonsurrogate _ _ _ _ X (by rw [hround]; omega)]
    rw [hround, Char.ofNat_toNat]
  · have hhi16 : 55296 + (c.toNat - 65536) / 1024 < 65536 := by omega
    have hlo16 : 56320 + (c.toNat - 65536) % 1024 < 65536 := by omega
    have hroundhi := hex4Val_round (55296 + (c.toNat - 65536) / 1024) hhi16
    have hroundlo := hex4Val_round (56320 + (c.toNat - 65536) % 1024) hlo16
    rw [escChar, if_neg h1, if_neg h2, if_neg h3, if_neg h4, if_neg h5, if_neg h6, if_neg h7,
      if_neg h8, if_neg h9, if_neg h10, hexOfNat_four, hexOfNat_four]
    simp only [List.cons_append, List.nil_append, List.append_assoc]
    rw [unescape_u_pair _ _ _ _ _ _ _ _ X (by rw [hroundhi]; omega)]
    rw [hroundhi, hroundlo]
    have harith : (55296 + (c.toNat - 65536) / 1024 - 55296) * 1024 +
        (56320 + (c.toNat - 65536) % 1024 - 56320) + 65536 = c.toNat := by
      omega
    rw [harith, Char.ofNat_toNat]

theorem escape_cons (c : Char) (t : List Char) :
    escape (c :: t) = escChar c ++ escape t := by
  simp [escape]

theorem unescape_escape (l : List Char) : unescape (escape l) = l := by
  induction l with
  | nil => simp [escape]; rw [unescape.eq_def]
  | cons c t ih => rw [escape_cons, unescape_escChar_append, ih]

theorem escape_injective (l1 l2 : List Char) (h : escape l1 = escape l2) : l1 = l2 := by
  rw [← unescape_escape l1, h, unescape_escape]

/-! ### Claim theorems -/

/-- C1 counterexample. An artifact whose stat record is 90.5 days old when
the expiry window is 90 days is `fresh` under the spec's rule (the age in
whole days, rounding down, is 90, which does not exceed the window), yet the
code forces a download for it: the claim's "fractional days rounding down"
is not what `media_to_download` computes. -/
theorem c1_counterexample :
    classify_spec 90 7905600 (some ⟨some 86400, some "c"⟩) = Freshness.fresh ∧
    media_to_download 90 7905600 "http://example.com/a.jpg"
      (.ok ⟨some 86400, some "c"⟩) = none := by
  constructor
  · have hfloor : ⌊((7905600 : ℚ) - 86400) / 86400⌋ = 90 := by
      rw [show ((7905600 : ℚ) - 86400) / 86400 = 181 / 2 from by norm_num]
      exact Int.floor_eq_iff.mpr (by norm_num)
    simp only [classify_spec]
    rw [if_neg (by rw [hfloor]; omega)]
  · rw [media_to_download]
    simp only [reduceCtorEq, and_self, if_false, false_and, if_neg, ite_false]
    norm_num

/-- C1 (amended): with a nonzero last-modified stamp, an artifact aged
exactly `EXPIRES` days is treated as fresh (an `uptodate` record is
produced, no download is forced) and one aged `EXPIRES + 1` days is treated
as stale (a download is forced); the decision compares the exact fractional
age in days against the window — any age strictly greater than the window,
even by a fraction of a day, forces a download, with no rounding down. -/
theorem c1_freshness_boundary (EXPIRES lm now : ℚ) (ck : String) (url : String)
    (hlm : lm ≠ 0) :
    (now - lm = EXPIRES * 86400 →
      media_to_download EXPIRES now url (.ok ⟨some lm, some ck⟩) =
        some ⟨url, image_key url, some ck⟩) ∧
    (now - lm = (EXPIRES + 1) * 86400 →
      media_to_download EXPIRES now url (.ok ⟨some lm, some ck⟩) = none) ∧
    (media_to_download EXPIRES now url (.ok ⟨some lm, some ck⟩) = none ↔
      (now - lm) / 86400 > EXPIRES) := by
  have hdays : (now - lm) / 60 / 60 / 24 = (now - lm) / 86400 := by
    rw [div_div, div_div]
    norm_num
  rw [media_to_download]
  simp only [reduceCtorEq, false_and, if_false, ite_false, if_neg hlm, hdays]
  refine ⟨?_, ?_, ?_⟩
  · intro hage
    rw [hage]
    rw [mul_div_assoc]
    norm_num
  · intro hage
    rw [hage]
    rw [if_pos]
    rw [mul_div_assoc]
    norm_num
  · constructor
    · intro h
      by_contra hgt
      rw [if_neg hgt] at h
      exact Option.noConfusion h
    · intro h
      rw [if_pos h]

/-- C1 witness: the amended boundary at window 90 days, stamp 1 second. -/
theorem c1_freshness_boundary_witness :
    media_to_download 90 7776001 "u" (.ok ⟨some 1, some "c"⟩) =
      some ⟨"u", image_key "u", some "c"⟩ ∧
    media_to_download 90 7862401 "u" (.ok ⟨some 1, some "c"⟩) = none := by
  constructor
  · exact (c1_freshness_boundary 90 1 7776001 "c" "u" (by norm_num)).1 (by norm_num)
  · exact (c1_freshness_boundary 90 1 7862401 "c" "u" (by norm_num)).2.1 (by norm_num)

/-- C5: a stat for a key with no stored object does not raise — the
filesystem store's bare `except` returns the empty record — and both that
absent result and an outright stat failure (raised exception / failed
deferred) make `media_to_download` force a refetch (`none`), never a failed
outcome. -/
theorem c5_stat_failure_degrades (fs : String → Option (ℚ × List Nat)) (key : String)
    (EXPIRES now : ℚ) (url : String) (habsent : fs key = none) :
    stat_image fs key = ⟨none, none⟩ ∧
    media_to_download EXPIRES now url (.ok (stat_image fs key)) = none ∧
    media_to_download EXPIRES now url .err = none := by
  have hstat : stat_image fs key = ⟨none, none⟩ := by
    rw [stat_image, habsent]
  refine ⟨hstat, ?_, rfl⟩
  rw [hstat, media_to_download]
  simp

/-- C5 witness: the empty filesystem at a concrete key. -/
theorem c5_stat_failure_degrades_witness :
    stat_image fsEmpty "full/k.jpg" = ⟨none, none⟩ ∧
    media_to_download 90 1000 "u" (.ok (stat_image fsEmpty "full/k.jpg")) = none := by
  have h := c5_stat_failure_degrades fsEmpty "full/k.jpg" 90 1000 "u" rfl
  exact ⟨h.1, h.2.1⟩

/-- C10: a stat result whose `last_modified` is exactly 0 (the Unix epoch)
is classified the same as one with no `last_modified` at all — the Python
falsiness test makes both force a download — for every expiry window, time,
and checksum. -/
theorem c10_epoch_zero_missing (EXPIRES now : ℚ) (url : String) (ck : Option String) :
    media_to_download EXPIRES now url (.ok ⟨some 0, ck⟩) = none ∧
    media_to_download EXPIRES now url (.ok ⟨some 0, ck⟩) =
      media_to_download EXPIRES now url (.ok ⟨none, ck⟩) := by
  have h1 : media_to_download EXPIRES now url (.ok ⟨some 0, ck⟩) = none := by
    rw [media_to_download]
    simp
  have h2 : media_to_download EXPIRES now url (.ok ⟨none, ck⟩) = none := by
    rw [media_to_download]
    rcases ck with _ | c <;> simp
  exact ⟨h1, h1.trans h2.symm⟩

/-- C6: a non-200 status or an empty body makes `media_downloaded` raise
`ImageException` with nothing processed or persisted. -/
theorem c6_download_error (cfg : ImagesConfig) (im : Imaging) (persist : PersistCall)
    (requrl : String) (resp : Response)
    (h : resp.status ≠ 200 ∨ resp.body = []) :
    media_downloaded cfg im persist requrl resp = ([], .imageException) := by
  rcases h with h | h
  · rw [media_downloaded, if_pos h]
  · by_cases hs : resp.status = 200
    · rw [media_downloaded]
      rw [if_neg (by simpa using hs)]
      rw [if_pos h]
    · rw [media_downloaded, if_pos hs]

/-- C6 witness: a 404 response, and a 200 response with empty body. -/
theorem c6_download_error_witness :
    media_downloaded cfgTest imTest persistOk "u" ⟨"u", 404, [1]⟩ =
      ([], .imageException) ∧
    media_downloaded cfgTest imTest persistOk "u" ⟨"u", 200, []⟩ =
      ([], .imageException) := by
  constructor
  · exact c6_download_error cfgTest imTest persistOk "u" ⟨"u", 404, [1]⟩ (Or.inl (by decide))
  · exact c6_download_error cfgTest imTest persistOk "u" ⟨"u", 200, []⟩ (Or.inr rfl)

/-- C7: a decodable payload below the configured minimum dimensions makes
the generator raise a too-small error carrying the actual and required
dimensions, and the resource fails with nothing persisted. -/
theorem c7_too_small (cfg : ImagesConfig) (im : Imaging) (persist : PersistCall)
    (requrl : String) (resp : Response) (orig : PILImage)
    (hs : resp.status = 200) (hb : resp.body ≠ [])
    (hdec : im.decode resp.body = some orig)
    (hsmall : orig.width < cfg.MIN_WIDTH ∨ orig.height < cfg.MIN_HEIGHT) :
    get_images cfg im requrl resp =
      ([], some (.tooSmall orig.width orig.height cfg.MIN_WIDTH cfg.MIN_HEIGHT resp.url)) ∧
    media_downloaded cfg im persist requrl resp = ([], .imageException) := by
  have hg : get_images cfg im requrl resp =
      ([], some (.tooSmall orig.width orig.height cfg.MIN_WIDTH cfg.MIN_HEIGHT resp.url)) := by
    simp only [get_images, hdec]
    rw [if_pos hsmall]
  refine ⟨hg, ?_⟩
  rw [media_downloaded]
  rw [if_neg (by simpa using hs), if_neg (by simpa using hb)]
  rw [image_downloaded, hg]
  rfl

/-- C7 witness: a 10×10 image against a 50×60 minimum. -/
theorem c7_too_small_witness :
    get_images cfgMin imSmall "u" ⟨"u", 200, [1]⟩ =
      ([], some (.tooSmall 10 10 50 60 "u")) ∧
    media_downloaded cfgMin imSmall persistOk "u" ⟨"u", 200, [1]⟩ =
      ([], .imageException) := by
  exact c7_too_small cfgMin imSmall persistOk "u" ⟨"u", 200, [1]⟩ ⟨"RGB", 10, 10, 5⟩
    rfl (by decide) rfl (Or.inl (by decide))

/-! #### Helper lemmas for the persist / success paths -/

theorem persistLoop_ok (persist : PersistCall) (items : List (String × PILImage × List Nat))
    (hp : ∀ k i b, persist k i b = none) :
    persistLoop persist items = (items.map fun x => x.1, none) := by
  induction items with
  | nil => rfl
  | cons x t ih =>
    obtain ⟨k, i, b⟩ := x
    simp [persistLoop, hp k i b, ih]

theorem genThumbs_ok (im : Imaging) (requrl : String) (image : PILImage)
    (thumbs : List (String × Nat × Nat)) (tc : String × Nat × Nat → PILImage × List Nat)
    (ht : ∀ t ∈ thumbs, convert_image im image (some t.2) = .ok (tc t)) :
    genThumbs im requrl image thumbs =
      (thumbs.map fun t => (thumb_key requrl t.1, tc t), none) := by
  induction thumbs with
  | nil => rfl
  | cons t rest ih =>
    obtain ⟨tid, size⟩ := t
    have h1 := ht (tid, size) (List.mem_cons_self _ _)
    have ih2 := ih fun t' ht' => ht t' (List.mem_cons_of_mem _ ht')
    simp [genThumbs, h1, ih2]

theorem get_images_ok (cfg : ImagesConfig) (im : Imaging) (requrl : String)
    (resp : Response) (orig image : PILImage) (buf : List Nat)
    (tc : String × Nat × Nat → PILImage × List Nat)
    (hdec : im.decode resp.body = some orig)
    (hdim : ¬(orig.width < cfg.MIN_WIDTH ∨ orig.height < cfg.MIN_HEIGHT))
    (hconv : convert_image im orig none = .ok (image, buf))
    (ht : ∀ t ∈ cfg.THUMBS, convert_image im image (some t.2) = .ok (tc t)) :
    get_images cfg im requrl resp =
      ((image_key requrl, image, buf) ::
        cfg.THUMBS.map (fun t => (thumb_key requrl t.1, tc t)), none) := by
  simp only [get_images, hdec]
  rw [if_neg hdim]
  simp only [hconv, genThumbs_ok im requrl image cfg.THUMBS tc ht]

theorem image_downloaded_ok (cfg : ImagesConfig) (im : Imaging) (persist : PersistCall)
    (requrl : String) (resp : Response) (k0 : String) (i0 : PILImage) (b0 : List Nat)
    (rest : List (String × PILImage × List Nat))
    (hg : get_images cfg im requrl resp = ((k0, i0, b0) :: rest, none))
    (hp : ∀ k i b, persist k i b = none) :
    image_downloaded cfg im persist requrl resp =
      (((k0, i0, b0) :: rest).map (fun x => x.1), .ok (md5Hexdigest b0)) := by
  simp only [image_downloaded, hg, persistLoop_ok persist _ hp]
  simp

theorem media_downloaded_ok (cfg : ImagesConfig) (im : Imaging) (persist : PersistCall)
    (requrl : String) (resp : Response) (k0 : String) (i0 : PILImage) (b0 : List Nat)
    (rest : List (String × PILImage × List Nat))
    (hs : resp.status = 200) (hb : resp.body ≠ [])
    (hg : get_images cfg im requrl resp = ((k0, i0, b0) :: rest, none))
    (hp : ∀ k i b, persist k i b = none) :
    media_downloaded cfg im persist requrl resp =
      (((k0, i0, b0) :: rest).map (fun x => x.1),
        .ok ⟨requrl, image_key requrl, some (md5Hexdigest b0)⟩) := by
  rw [media_downloaded]
  rw [if_neg (by simpa using hs), if_neg (by simpa using hb)]
  simp only [image_downloaded_ok cfg im persist requrl resp k0 i0 b0 rest hg hp]

theorem convert_image_mode (im : Imaging) (orig image : PILImage) (buf : List Nat)
    (hrgb : ∀ i, (im.convertRGB i).mode = "RGB")
    (h : convert_image im orig none = .ok (image, buf)) : image.mode = "RGB" := by
  by_cases hm : orig.mode = "RGB"
  · rw [convert_image, if_neg (by simp [hm])] at h
    cases henc : im.encodeJPEG orig with
    | none => rw [henc] at h; exact Except.noConfusion h
    | some b =>
      rw [henc] at h
      injection h with h1
      injection h1 with h2 h3
      rw [← h2, hm]
  · rw [convert_image, if_pos (by simpa using hm)] at h
    cases henc : im.encodeJPEG (im.convertRGB orig) with
    | none => rw [henc] at h; exact Except.noConfusion h
    | some b =>
      rw [henc] at h
      injection h with h1
      injection h1 with h2 h3
      rw [← h2, hrgb]

/-- C2 counterexample. With the filesystem store, a persist failure does not
leave the outcome record intact: for a payload that decodes, converts and
encodes cleanly (the generator finishes with no error), a raising persist
call makes `media_downloaded` raise `ImageException` — the per-resource
outcome is FAILED and no `(url, key, checksum)` record is produced. -/
theorem c2_counterexample :
    (get_images cfgTest imTest "u" ⟨"u", 200, [7]⟩).2 = none ∧
    media_downloaded cfgTest imTest persistFail "u" ⟨"u", 200, [7]⟩ =
      ([], .imageException) ∧
    ¬ ∃ rec, (media_downloaded cfgTest imTest persistFail "u" ⟨"u", 200, [7]⟩).2 =
      MediaResult.ok rec := by
  refine ⟨rfl, rfl, ?_⟩
  rintro ⟨rec, h⟩
  rw [show (media_downloaded cfgTest imTest persistFail "u" ⟨"u", 200, [7]⟩).2 =
    MediaResult.imageException from rfl] at h
  exact MediaResult.noConfusion h

/-- C2 (amended): a synchronous persist failure (the filesystem store
raises) propagates out of `image_downloaded`; `media_downloaded` logs it and
raises `ImageException`, so the resource becomes FAILED and no outcome
record is produced. Only the S3 store's persist call — which returns a
deferred whose result `image_downloaded` discards and which never raises
synchronously — leaves the outcome record intact whatever becomes of the
upload. -/
theorem c2_persist_failure (cfg : ImagesConfig) (im : Imaging) (requrl : String)
    (resp : Response) (hs : resp.status = 200) (hb : resp.body ≠ []) :
    (∀ (persist : PersistCall) (e : PersistError) (ks : List String),
      image_downloaded cfg im persist requrl resp = (ks, .error (.persist e)) →
      media_downloaded cfg im persist requrl resp = (ks, .imageException)) ∧
    (∀ (k0 : String) (i0 : PILImage) (b0 : List Nat)
        (rest : List (String × PILImage × List Nat)),
      get_images cfg im requrl resp = ((k0, i0, b0) :: rest, none) →
      (media_downloaded cfg im s3PersistCall requrl resp).2 =
        .ok ⟨requrl, image_key requrl, some (md5Hexdigest b0)⟩) := by
  constructor
  · intro persist e ks himg
    rw [media_downloaded]
    rw [if_neg (by simpa using hs), if_neg (by simpa using hb)]
    simp only [himg]
  · intro k0 i0 b0 rest hg
    rw [media_downloaded_ok cfg im s3PersistCall requrl resp k0 i0 b0 rest hs hb hg
      (fun _ _ _ => rfl)]

/-- C2 witness: a failing filesystem persist yields FAILED and no record,
while the S3 call path on the same response still produces the record. -/
theorem c2_persist_failure_witness :
    media_downloaded cfgTest imTest persistFail "u" ⟨"u", 200, [7]⟩ =
      ([], .imageException) ∧
    (media_downloaded cfgTest imTest s3PersistCall "u" ⟨"u", 200, [7]⟩).2 =
      .ok ⟨"u", image_key "u", some (md5Hexdigest [0, 100])⟩ := by
  constructor
  · exact (c2_persist_failure cfgTest imTest "u" ⟨"u", 200, [7]⟩ rfl (by decide)).1
      persistFail (.ioError "disk full") [] rfl
  · exact (c2_persist_failure cfgTest imTest "u" ⟨"u", 200, [7]⟩ rfl (by decide)).2
      (image_key "u") ⟨"RGB", 100, 80, 0⟩ [0, 100]
      [(thumb_key "u" "small", ⟨"RGB", 50, 50, 1⟩, [1, 50])] rfl

/-- C8: on a successful run the recorded checksum is the MD5 hexdigest of
the first buffer the generator yields — the primary artifact's encoded
bytes — whatever the list of derived variants behind it. -/
theorem c8_checksum_primary (cfg : ImagesConfig) (im : Imaging) (persist : PersistCall)
    (requrl : String) (resp : Response) (k0 : String) (i0 : PILImage) (b0 : List Nat)
    (rest : List (String × PILImage × List Nat))
    (hs : resp.status = 200) (hb : resp.body ≠ [])
    (hg : get_images cfg im requrl resp = ((k0, i0, b0) :: rest, none))
    (hp : ∀ k i b, persist k i b = none) :
    (media_downloaded cfg im persist requrl resp).2 =
      .ok ⟨requrl, image_key requrl, some (md5Hexdigest b0)⟩ := by
  rw [media_downloaded_ok cfg im persist requrl resp k0 i0 b0 rest hs hb hg hp]

/-- C8 witness: with one thumbnail configured, the reported checksum is the
MD5 of the primary buffer `[0, 100]`, not of the thumbnail buffer. -/
theorem c8_checksum_primary_witness :
    (media_downloaded cfgTest imTest persistOk "u" ⟨"u", 200, [7]⟩).2 =
      .ok ⟨"u", image_key "u", some (md5Hexdigest [0, 100])⟩ := by
  exact c8_checksum_primary cfgTest imTest persistOk "u" ⟨"u", 200, [7]⟩
    (image_key "u") ⟨"RGB", 100, 80, 0⟩ [0, 100]
    [(thumb_key "u" "small", ⟨"RGB", 50, 50, 1⟩, [1, 50])]
    rfl (by decide) rfl (fun _ _ _ => rfl)

/-- C9: on a fully successful run, exactly `1 + |THUMBS|` artifacts are
persisted, in order: the primary first (under `full/...`), then one derived
variant per configured thumbnail; every variant is produced by
`convert_image` from the converted primary image, which is RGB-normalized,
never from the raw payload. -/
theorem c9_artifacts (cfg : ImagesConfig) (im : Imaging) (persist : PersistCall)
    (requrl : String) (resp : Response) (orig image : PILImage) (buf : List Nat)
    (tc : String × Nat × Nat → PILImage × List Nat)
    (hs : resp.status = 200) (hb : resp.body ≠ [])
    (hdec : im.decode resp.body = some orig)
    (hdim : ¬(orig.width < cfg.MIN_WIDTH ∨ orig.height < cfg.MIN_HEIGHT))
    (hconv : convert_image im orig none = .ok (image, buf))
    (ht : ∀ t ∈ cfg.THUMBS, convert_image im image (some t.2) = .ok (tc t))
    (hp : ∀ k i b, persist k i b = none)
    (hrgb : ∀ i, (im.convertRGB i).mode = "RGB") :
    get_images cfg im requrl resp =
      ((image_key requrl, image, buf) ::
        cfg.THUMBS.map (fun t => (thumb_key requrl t.1, tc t)), none) ∧
    (media_downloaded cfg im persist requrl resp).1 =
      image_key requrl :: cfg.THUMBS.map (fun t => thumb_key requrl t.1) ∧
    (media_downloaded cfg im persist requrl resp).1.length = 1 + cfg.THUMBS.length ∧
    image.mode = "RGB" := by
  have hg := get_images_ok cfg im requrl resp orig image buf tc hdec hdim hconv ht
  have hm := media_downloaded_ok cfg im persist requrl resp (image_key requrl) image buf
    (cfg.THUMBS.map (fun t => (thumb_key requrl t.1, tc t))) hs hb hg hp
  refine ⟨hg, ?_, ?_, convert_image_mode im orig image buf hrgb hconv⟩
  · rw [hm]
    simp [Function.comp]
  · rw [hm]
    simp
    omega

/-- C9 witness: the benign backend with one configured thumbnail persists
exactly the primary key then the variant key, and the primary is
RGB-normalized. -/
theorem c9_artifacts_witness :
    (media_downloaded cfgTest imTest persistOk "u" ⟨"u", 200, [7]⟩).1 =
      [image_key "u", thumb_key "u" "small"] ∧
    (media_downloaded cfgTest imTest persistOk "u" ⟨"u", 200, [7]⟩).1.length = 2 := by
  have h := c9_artifacts cfgTest imTest persistOk "u" ⟨"u", 200, [7]⟩
    ⟨"RGB", 100, 80, 0⟩ ⟨"RGB", 100, 80, 0⟩ [0, 100]
    (fun _ => (⟨"RGB", 50, 50, 1⟩, [1, 50]))
    rfl (by decide) rfl (by decide) rfl
    (by
      intro t htm
      simp only [cfgTest, List.mem_singleton] at htm
      subst htm
      rfl)
    (fun _ _ _ => rfl) (fun _ => rfl)
  exact ⟨h.2.1, h.2.2.1⟩

/-! #### Storage-key shape lemmas (C4) -/

theorem image_key_length (url : String) : (image_key url).length = 49 := by
  rw [image_key]
  rw [String.length_append, String.length_append, sha1Hexdigest_length]
  rfl

theorem sha1Hexdigest_all_hex (msg : List Nat) :
    (sha1Hexdigest msg).data.all (hexChars.contains) = true := by
  rw [List.all_eq_true]
  intro c hc
  rw [show (sha1Hexdigest msg).data = hexOfNat (sha1Digest msg) 40 from rfl] at hc
  rw [hexOfNat] at hc
  simp only [List.mem_map, List.mem_range] at hc
  obtain ⟨i, _, hi⟩ := hc
  rw [← hi]
  exact List.elem_iff.mpr (hexDigit_mem_hexChars _ (Nat.mod_lt _ (by norm_num)))

/-- C4 counterexample. The key for a concrete URL has no 64-hex-character
digest component: the pipeline derives keys with SHA-1, whose hexdigest is
40 characters, so the key's total length is 49, not the 73 the claimed
shape would give. -/
theorem c4_counterexample :
    ¬ hasShape64 (image_key "http://www.example.com/image.jpg") := by
  rintro ⟨d, hk, hlen⟩
  have h1 := image_key_length "http://www.example.com/image.jpg"
  rw [hk, String.length_append, String.length_append, hlen] at h1
  rw [show "full/".length = 5 from rfl, show ".jpg".length = 4 from rfl] at h1
  omega

/-- C4 (amended): key derivation is a pure function of the URL alone — both
keys textually embed the SHA-1 hexdigest of the URL's bytes, and nothing
else of the request: `full/<40-hex-char-digest>.jpg` for the primary and
`thumbs/<variant>/<40-hex-char-digest>.jpg` for each variant, with the same
40-character lowercase-hex digest (so equal URLs always give equal keys,
across calls and restarts, independent of the request fingerprint). -/
theorem c4_key_shape (url tid : String) :
    image_key url = "full/" ++ sha1Hexdigest (strBytes url) ++ ".jpg" ∧
    thumb_key url tid = "thumbs/" ++ tid ++ "/" ++ sha1Hexdigest (strBytes url) ++ ".jpg" ∧
    (sha1Hexdigest (strBytes url)).length = 40 ∧
    (sha1Hexdigest (strBytes url)).data.all (hexChars.contains) = true := by
  exact ⟨rfl, rfl, sha1Hexdigest_length _, sha1Hexdigest_all_hex _⟩

/-! #### Fingerprint lemmas (C3) -/

theorem string_ext (s t : String) (h : s.data = t.data) : s = t := by
  cases s
  cases t
  exact congrArg String.mk h

theorem fingerprint_lt (r : Request) (ih : Option (List String)) (kf : Bool) :
    fingerprint r ih kf < 2 ^ 160 := sha1Digest_lt _

theorem hexOfNat_two (n : Nat) :
    hexOfNat n 2 = [hexDigit (n / 16 % 16), hexDigit (n % 16)] := by
  simp [hexOfNat, List.range_succ]

theorem hexPair_eq (x y : Fin 256)
    (h1 : hexDigit (x.val / 16 % 16) = hexDigit (y.val / 16 % 16))
    (h2 : hexDigit (x.val % 16) = hexDigit (y.val % 16)) : x = y := by
  have e1 : x.val / 16 % 16 = y.val / 16 % 16 := by
    have := congrArg hexVal h1
    rwa [hexVal_hexDigit _ (Nat.mod_lt _ (by norm_num)),
      hexVal_hexDigit _ (Nat.mod_lt _ (by norm_num))] at this
  have e2 : x.val % 16 = y.val % 16 := by
    have := congrArg hexVal h2
    rwa [hexVal_hexDigit _ (Nat.mod_lt _ (by norm_num)),
      hexVal_hexDigit _ (Nat.mod_lt _ (by norm_num))] at this
  have hx := x.isLt
  have hy := y.isLt
  exact Fin.ext (by omega)

theorem bytesHexData_injective : ∀ (b1 b2 : List (Fin 256)),
    (b1.map fun x => hexOfNat x.val 2).flatten = (b2.map fun x => hexOfNat x.val 2).flatten →
    b1 = b2
  | [], [], _ => rfl
  | [], y :: t, h => by simp [hexOfNat_two] at h
  | x :: t, [], h => by simp [hexOfNat_two] at h
  | x :: t1, y :: t2, h => by
    rw [List.map_cons, List.map_cons, List.flatten_cons, List.flatten_cons,
      hexOfNat_two, hexOfNat_two] at h
    simp only [List.cons_append, List.nil_append] at h
    injection h with e1 h
    injection h with e2 h
    rw [hexPair_eq x y e1 e2, bytesHexData_injective t1 t2 h]

theorem bytesHex_injective (b1 b2 : List (Fin 256)) (h : bytesHex b1 = bytesHex b2) :
    b1 = b2 :=
  bytesHexData_injective b1 b2 (congrArg String.data h)

theorem parts_body_inj (m cu : String) (hd : List (String × List String)) (x1 x2 : String)
    (h : fingerprintPayloadParts m cu x1 hd = fingerprintPayloadParts m cu x2 hd) :
    x1 = x2 := by
  have hdata := congrArg String.data h
  simp only [fingerprintPayloadParts, jsonStr, String.data_append, List.append_assoc] at hdata
  have h1 := List.append_cancel_left hdata
  have h2 := List.append_cancel_left h1
  have h3 := List.append_cancel_right h2
  exact string_ext _ _ (escape_injective _ _ h3)

theorem parts_method_inj (cu x : String) (hd : List (String × List String)) (m1 m2 : String)
    (h : fingerprintPayloadParts m1 cu x hd = fingerprintPayloadParts m2 cu x hd) :
    m1 = m2 := by
  have hdata := congrArg String.data h
  simp only [fingerprintPayloadParts, jsonStr, String.data_append, List.append_assoc] at hdata
  have h1 := List.append_cancel_left hdata
  have h2 := List.append_cancel_left h1
  have h3 := List.append_cancel_left h2
  have h4 := List.append_cancel_left h3
  have h5 := List.append_cancel_left h4
  have h6 := List.append_cancel_left h5
  have h7 := List.append_cancel_left h6
  have h8 := List.append_cancel_left h7
  have h9 := List.append_cancel_right h8
  exact string_ext _ _ (escape_injective _ _ h9)

theorem fingerprintHeaders_congr (r1 r2 : Request) (p : List String)
    (h : r1.headers = r2.headers) :
    fingerprintHeaders r1 p = fingerprintHeaders r2 p := by
  unfold fingerprintHeaders
  rw [h]

theorem canonicalize_url_ignores_fragment (scheme host path : String)
    (q : List (String × String)) (f1 f2 : String) :
    canonicalize_url ⟨scheme, host, path, q, f1⟩ false =
      canonicalize_url ⟨scheme, host, path, q, f2⟩ false := by
  simp [canonicalize_url]

/-- C3 counterexample. The universal clause "differing bodies yield
different fingerprints" is false in principle: the fingerprint space is
finite (a SHA-1 digest is below `2 ^ 160`) while bodies are unbounded, so
by the pigeonhole principle two distinct bodies of a concrete GET request
must share a fingerprint. -/
theorem c3_counterexample :
    ¬ (∀ b1 b2 : List (Fin 256), b1 ≠ b2 →
        fingerprint ⟨"GET", ⟨"http", "example.com", "/", [], ""⟩, b1, []⟩ none false ≠
          fingerprint ⟨"GET", ⟨"http", "example.com", "/", [], ""⟩, b2, []⟩ none false) := by
  intro hinj
  obtain ⟨x, y, hxy, hfxy⟩ := Finite.exists_ne_map_eq_of_infinite
    (fun n : ℕ => (⟨fingerprint ⟨"GET", ⟨"http", "example.com", "/", [], ""⟩,
      List.replicate n 0, []⟩ none false, fingerprint_lt _ _ _⟩ : Fin (2 ^ 160)))
  have hbne : List.replicate x (0 : Fin 256) ≠ List.replicate y 0 := by
    intro hh
    apply hxy
    have := congrArg List.length hh
    simpa using this
  exact hinj _ _ hbne (congrArg Fin.val hfxy)

/-- C3 (amended): fingerprinting is deterministic and semantic — requests
with identical method, canonicalized URL, body, and selected-header
dictionary have equal fingerprints; two requests differing only in the URL
fragment have equal fingerprints when `keep_fragments` is false; and
differing bodies or differing methods (other identity fields equal) yield
different serialized fingerprint payloads, i.e. different SHA-1 inputs —
hence different fingerprints except for an actual SHA-1 collision, which
must exist by pigeonhole but is computationally negligible. -/
theorem c3_fingerprint_semantics :
    (∀ (r1 r2 : Request) (ih : Option (List String)) (kf : Bool),
      r1.method = r2.method →
      canonicalize_url r1.url kf = canonicalize_url r2.url kf →
      r1.body = r2.body →
      fingerprintHeaders r1 (processedIncludeHeaders ih) =
        fingerprintHeaders r2 (processedIncludeHeaders ih) →
      fingerprint r1 ih kf = fingerprint r2 ih kf) ∧
    (∀ (m scheme host path : String) (q : List (String × String)) (f1 f2 : String)
        (b : List (Fin 256)) (hs : List (String × List String))
        (ih : Option (List String)),
      fingerprint ⟨m, ⟨scheme, host, path, q, f1⟩, b, hs⟩ ih false =
        fingerprint ⟨m, ⟨scheme, host, path, q, f2⟩, b, hs⟩ ih false) ∧
    (∀ (r1 r2 : Request) (ih : Option (List String)) (kf : Bool),
      r1.method = r2.method → r1.url = r2.url → r1.headers = r2.headers →
      r1.body ≠ r2.body →
      fingerprintPayload r1 ih kf ≠ fingerprintPayload r2 ih kf) ∧
    (∀ (r1 r2 : Request) (ih : Option (List String)) (kf : Bool),
      r1.url = r2.url → r1.headers = r2.headers → r1.body = r2.body →
      r1.method ≠ r2.method →
      fingerprintPayload r1 ih kf ≠ fingerprintPayload r2 ih kf) := by
  refine ⟨?_, ?_, ?_, ?_⟩
  · intro r1 r2 ih kf h1 h2 h3 h4
    unfold fingerprint fingerprintPayload
    rw [h1, h2, h3, h4]
  · intro m scheme host path q f1 f2 b hs ih
    unfold fingerprint fingerprintPayload
    dsimp only
    rw [canonicalize_url_ignores_fragment scheme host path q f1 f2,
      fingerprintHeaders_congr ⟨m, ⟨scheme, host, path, q, f1⟩, b, hs⟩
        ⟨m, ⟨scheme, host, path, q, f2⟩, b, hs⟩ _ rfl]
  · intro r1 r2 ih kf hm hu hh hb heq
    apply hb
    unfold fingerprintPayload at heq
    rw [hm, hu, fingerprintHeaders_congr r1 r2 _ hh] at heq
    exact bytesHex_injective _ _ (parts_body_inj _ _ _ _ _ heq)
  · intro r1 r2 ih kf hu hh hb hm heq
    apply hm
    unfold fingerprintPayload at heq
    rw [hu, hb, fingerprintHeaders_congr r1 r2 _ hh] at heq
    exact parts_method_inj _ _ _ _ _ heq

/-- C3 witness: equal fingerprints across query reordering and across a
fragment-only difference; distinct payloads for a body-only and for a
method-only difference. -/
theorem c3_fingerprint_semantics_witness :
    fingerprint ⟨"GET", ⟨"http", "example.com", "/a", [("a", "1"), ("b", "2")], ""⟩, [], []⟩
        none false =
      fingerprint ⟨"GET", ⟨"http", "example.com", "/a", [("b", "2"), ("a", "1")], ""⟩, [], []⟩
        none false ∧
    fingerprint ⟨"GET", ⟨"http", "example.com", "/a", [("q", "1")], "sec2"⟩, [], []⟩ none false =
      fingerprint ⟨"GET", ⟨"http", "example.com", "/a", [("q", "1")], ""⟩, [], []⟩ none false ∧
    fingerprintPayload ⟨"GET", ⟨"http", "example.com", "/a", [("q", "1")], ""⟩, [0], []⟩
        none false ≠
      fingerprintPayload ⟨"GET", ⟨"http", "example.com", "/a", [("q", "1")], ""⟩, [1], []⟩
        none false ∧
    fingerprintPayload ⟨"GET", ⟨"http", "example.com", "/a", [("q", "1")], ""⟩, [0], []⟩
        none false ≠
      fingerprintPayload ⟨"POST", ⟨"http", "example.com", "/a", [("q", "1")], ""⟩, [0], []⟩
        none false := by
  refine ⟨?_, ?_, ?_, ?_⟩
  · exact c3_fingerprint_semantics.1
      ⟨"GET", ⟨"http", "example.com", "/a", [("a", "1"), ("b", "2")], ""⟩, [], []⟩
      ⟨"GET", ⟨"http", "example.com", "/a", [("b", "2"), ("a", "1")], ""⟩, [], []⟩
      none false rfl (by decide) rfl rfl
  · exact c3_fingerprint_semantics.2.1 "GET" "http" "example.com" "/a" [("q", "1")]
      "sec2" "" [] [] none
  · exact c3_fingerprint_semantics.2.2.1
      ⟨"GET", ⟨"http", "example.com", "/a", [("q", "1")], ""⟩, [0], []⟩
      ⟨"GET", ⟨"http", "example.com", "/a", [("q", "1")], ""⟩, [1], []⟩
      none false rfl rfl rfl (by decide)
  · exact c3_fingerprint_semantics.2.2.2
      ⟨"GET", ⟨"http", "example.com", "/a", [("q", "1")], ""⟩, [0], []⟩
      ⟨"POST", ⟨"http", "example.com", "/a", [("q", "1")], ""⟩, [0], []⟩
      none false rfl rfl rfl (by decide)

end Scrapy
